import Mathlib

/-!
Shallow embedding of the maddy message dispatcher (`dispatcher.go`, package
`maddy`) and the MTA-STS policy cache (`cache.go`, package `mtasts`), together
with theorems about their behaviour.

Conventions of the embedding:
* Go errors are modelled by the inductive `Err`; a `nil` error is `Option.none`
  (or the `Except.ok` branch for functions that return a value or an error).
* Go maps are modelled as functions into `Option`; pointer identity of
  `*rcptBlock` and of `module.DeliveryTarget` values is modelled by natural
  number identifiers resolved through an environment.
* Calls into external modules (check states, delivery targets, the filesystem,
  DNS, HTTP) are modelled by oracle records supplying the outcome of each call
  the code makes.
* Side effects that the claims talk about (opening/closing check states,
  starting deliveries, committing, aborting) are recorded in an event trace.
* Go `int32` arithmetic is modelled on `Int` with an explicit two's-complement
  wrap `wrap32`.
* `strings.ToLower` / `strings.EqualFold` are modelled with an ASCII folding
  (`goToLower`), which agrees with Go on all ASCII inputs.
-/

instance excDecEq {ε α : Type} [DecidableEq ε] [DecidableEq α] :
    DecidableEq (Except ε α)
  | .ok a, .ok b =>
      if h : a = b then .isTrue (by rw [h]) else .isFalse (by simp [h])
  | .ok _, .error _ => .isFalse (by simp)
  | .error _, .ok _ => .isFalse (by simp)
  | .error e, .error f =>
      if h : e = f then .isTrue (by rw [h]) else .isFalse (by simp [h])

/-- Errors, as the dispatcher distinguishes them: SMTP protocol errors with a
code, an enhanced code triple and a message (the `&smtp.SMTPError{...}` values
built in `dispatcher.go`), and all other Go errors, identified by their
message text. -/
inductive Err where
  | smtp (code : Nat) (e1 e2 e3 : Nat) (msg : String)
  | tagged (tag : String)
  deriving DecidableEq, Repr

/-- The `fmt.Errorf("malformed address")` value returned by `splitAddress`. -/
def malformedAddress : Err := .tagged "malformed address"

/-- `err.Error()` of an embedded error, used to build the 501 messages. -/
def Err.text : Err → String
  | .smtp _ _ _ _ msg => msg
  | .tagged tag => tag

/-- ASCII lower-casing of one character. -/
def lowerChar (c : Char) : Char :=
  if 65 ≤ c.toNat ∧ c.toNat ≤ 90 then Char.ofNat (c.toNat + 32) else c

/-- `strings.ToLower`, restricted to the ASCII folding (it agrees with Go on
every ASCII string, and all address keys the dispatcher compares are
ASCII). -/
def goToLower (s : String) : String := ⟨s.data.map lowerChar⟩

/-- `strings.EqualFold`, restricted to the ASCII folding that is relevant for
the comparison against the literal `"postmaster"`. -/
def eqFold (a b : String) : Bool := goToLower a == goToLower b

/-- Splitting a character list at every occurrence of `sep`; always returns at
least one (possibly empty) part. -/
def splitChar (sep : Char) : List Char → List (List Char)
  | [] => [[]]
  | c :: cs =>
    match splitChar sep cs with
    | [] => [[]]
    | p :: ps => if c = sep then [] :: p :: ps else (c :: p) :: ps

/-- `strings.Split(addr, "@")`: since the separator is the single character
`'@'`, it is the character-list split at `'@'`. -/
def goSplitAt (addr : String) : List String :=
  (splitChar '@' addr.data).map String.mk

/-- `splitAddress` from `dispatcher.go`: split on `"@"`; a single part is
accepted only if it equals `postmaster` case-insensitively (returned verbatim
with an empty domain); two parts are accepted if both are non-empty (returned
verbatim); anything else is a malformed address. -/
def splitAddress (addr : String) : Except Err (String × String) :=
  match goSplitAt addr with
  | [p0] =>
      if eqFold p0 "postmaster" then .ok (p0, "") else .error malformedAddress
  | [p0, p1] =>
      if p0.length = 0 || p1.length = 0 then .error malformedAddress
      else .ok (p0, p1)
  | _ => .error malformedAddress

/-- Two's-complement wrap of an integer into the `int32` range, used for the
`checkScore` field (`int32` in Go) and for the `int32(·)` conversions of the
configured thresholds. -/
def wrap32 (x : Int) : Int := (x + 2 ^ 31) % 2 ^ 32 - 2 ^ 31

/-- `module.CheckResult`: outcome of one check call.  `authResult` entries and
header fields are opaque to the dispatcher, so they are modelled as strings
and string pairs. -/
structure CheckResult where
  rejectErr : Option Err := none
  quarantine : Bool := false
  scoreAdjust : Int := 0
  authResult : List String := []
  header : List (String × String) := []
  deriving DecidableEq, Repr

/-- The part of the per-message mutable state of `dispatcherDelivery` that
`checkResult` touches: the running score, the message's `Quarantine` flag
(`dd.msgMeta.Quarantine`), the accumulated `Authentication-Results` values and
the accumulated extra header fields. -/
structure DDState where
  checkScore : Int
  quarantine : Bool
  authRes : List String
  header : List (String × String)
  deriving DecidableEq, Repr

/-- The two score thresholds of `dispatcherCfg` (`*int` in Go, hence
`Option Int`; they are converted with `int32(·)` at each use). -/
structure ScoreCfg where
  rejectScore : Option Int
  quarantineScore : Option Int

/-- The comparison `dd.checkScore >= int32(*threshold)` made by
`checkResult` for a configured (`non-nil`) threshold; `false` when the
threshold is `nil`. -/
def reachesThreshold (threshold : Option Int) (score : Int) : Bool :=
  match threshold with
  | some t => wrap32 t ≤ score
  | none => false

/-- The `550 5.7.0` error built by `checkResult` when the running score
reaches `rejectScore`. -/
def scoreRejectErr (score : Int) : Err :=
  .smtp 550 5 7 0
    ("Message is rejected due to multiple local policy violations (score " ++
      toString score ++ ")")

/-- `dispatcherDelivery.checkResult`: returns the `RejectErr` untouched if it
is set; otherwise ORs the `Quarantine` flag in, adds `ScoreAdjust` to the
running score (in `int32` arithmetic), rejects with 550 5.7.0 when
`rejectScore` is set and reached, otherwise quarantines when
`quarantineScore` is set and reached, and finally appends the `AuthResult`
entries and the extra header fields.  The returned pair is (error, state
after the call); an early `return` leaves the not-yet-performed mutations
undone, exactly as in the Go code. -/
def checkResultStep (cfg : ScoreCfg) (st : DDState) (res : CheckResult) :
    Option Err × DDState :=
  match res.rejectErr with
  | some e => (some e, st)
  | none =>
    let st1 := if res.quarantine then { st with quarantine := true } else st
    let score := wrap32 (st1.checkScore + res.scoreAdjust)
    let st2 := { st1 with checkScore := score }
    if reachesThreshold cfg.rejectScore score then
      (some (scoreRejectErr score), st2)
    else
      let st3 := if reachesThreshold cfg.quarantineScore score then
          { st2 with quarantine := true } else st2
      (none, { st3 with
                authRes := st3.authRes ++ res.authResult,
                header := st3.header ++ res.header })

/-- Folding `checkResult` over a sequence of check results, stopping at the
first rejection, as the dispatcher does across its `Check*` calls. -/
def runChecks (cfg : ScoreCfg) : DDState → List CheckResult → Option Err × DDState
  | st, [] => (none, st)
  | st, r :: rs =>
    match checkResultStep cfg st r with
    | (some e, st') => (some e, st')
    | (none, st') => runChecks cfg st' rs

/-- Identifier of a `*rcptBlock` pointer. -/
abbrev RcptBlockId := Nat

/-- Identifier of a `module.DeliveryTarget` value. -/
abbrev TargetId := Nat

/-- Observable side effects of the dispatcher: creation (`NewMessage`) and
`Close` of the three kinds of check states, `target.Start`, and the calls
forwarded to delivery objects. -/
inductive Ev where
  | openGlobalState
  | closeGlobalState
  | openSourceState
  | closeSourceState
  | openRcptState (b : RcptBlockId)
  | closeRcptState (b : RcptBlockId)
  | targetStart (t : TargetId)
  | deliveryAddRcpt (t : TargetId)
  | deliveryCommit (t : TargetId)
  | deliveryAbort (t : TargetId)
  deriving DecidableEq, Repr

/-- `rcptBlock`: per-recipient policy block (its checks are modelled by the
oracle, keyed by the block's identity). -/
structure RcptBlock where
  rejectErr : Option Err
  targets : List TargetId

/-- `sourceBlock`: per-sender policy block.  `perRcpt` is the
`map[string]*rcptBlock` (pointers modelled by `RcptBlockId`), `defaultRcpt`
the `*rcptBlock` fallback. -/
structure SourceBlock where
  rejectErr : Option Err
  perRcpt : String → Option RcptBlockId
  defaultRcpt : RcptBlockId

/-- `Dispatcher` configuration: `perSource` is the `map[string]sourceBlock`
(value map), `defaultSource` the fallback block, plus the score thresholds. -/
structure Dispatcher where
  perSource : String → Option SourceBlock
  defaultSource : SourceBlock
  cfg : ScoreCfg

/-- `dispatcherDelivery`, as far as the claims need it: the configuration, the
chosen source block, the sender, the mutable check-result state, the keys of
the `rcptChecksState` map (which per-rcpt check states are memoized) and the
keys of the `deliveries` map (which targets have a started delivery). -/
structure DDelivery where
  cfg : ScoreCfg
  sourceBlock : SourceBlock
  sourceAddr : String
  st : DDState
  rcptStates : List RcptBlockId
  deliveries : List TargetId

/-- Outcomes of the external calls made by one `Dispatcher.Start` call:
creating the global and source check states (`none` = success) and the four
check invocations. -/
structure StartOracle where
  globalNewMessage : Option Err
  globalConn : CheckResult
  globalSender : CheckResult
  sourceNewMessage : Option Err
  sourceConn : CheckResult
  sourceSender : CheckResult

/-- The source-block resolution inside `Dispatcher.Start` (lines 100–128):
exact lowercased address, then lowercased domain (with a 501 5.1.3 for a
malformed address), then `defaultSource`; a matched block with a reject
error has not yet been consulted here — `DStart` checks `rejectErr` on the
returned block. -/
def resolveSource (d : Dispatcher) (mailFrom : String) :
    Except Err SourceBlock :=
  match d.perSource (goToLower mailFrom) with
  | some sb => .ok sb
  | none =>
    match splitAddress mailFrom with
    | .error e =>
        .error (.smtp 501 5 1 3 ("Invalid sender address: " ++ e.text))
    | .ok (_, domain) =>
      match d.perSource (goToLower domain) with
      | some sb => .ok sb
      | none => .ok d.defaultSource

/-- `Dispatcher.Start`.  The two `defer` blocks close a check state only when
the *function-scope* `err` variable is non-nil at return time; every
rejection from `dd.checkResult` and the source-block reject error use
shadowed `err` variables, so on those paths the function-scope `err` is nil
and the deferred `Close` calls do nothing.  The only failing path on which a
`Close` happens is a failing `sourceBlock.checks.NewMessage`, which assigns
the function-scope `err` and therefore closes the global state. -/
def DStart (d : Dispatcher) (o : StartOracle) (q0 : Bool) (mailFrom : String) :
    Except Err DDelivery × List Ev :=
  let st0 : DDState := ⟨0, q0, [], []⟩
  match o.globalNewMessage with
  | some e => (.error e, [])
  | none =>
    let evs0 := [Ev.openGlobalState]
    match checkResultStep d.cfg st0 o.globalConn with
    | (some e, _) => (.error e, evs0)
    | (none, st1) =>
      match checkResultStep d.cfg st1 o.globalSender with
      | (some e, _) => (.error e, evs0)
      | (none, st2) =>
        match resolveSource d mailFrom with
        | .error e => (.error e, evs0)
        | .ok sb =>
          match sb.rejectErr with
          | some e => (.error e, evs0)
          | none =>
            match o.sourceNewMessage with
            | some e => (.error e, evs0 ++ [Ev.closeGlobalState])
            | none =>
              let evs1 := evs0 ++ [Ev.openSourceState]
              match checkResultStep d.cfg st2 o.sourceConn with
              | (some e, _) => (.error e, evs1)
              | (none, st3) =>
                match checkResultStep d.cfg st3 o.sourceSender with
                | (some e, _) => (.error e, evs1)
                | (none, st4) =>
                  (.ok ⟨d.cfg, sb, mailFrom, st4, [], []⟩, evs1)

/-- Outcomes of the external calls one `AddRcpt` call may make: creating the
per-rcpt-block check state, its `CheckConnection` / `CheckSender` /
`CheckRcpt` results, and `target.Start` / `delivery.AddRcpt` per target. -/
structure RcptOracle where
  newMessage : RcptBlockId → Option Err
  conn : RcptBlockId → CheckResult
  sender : RcptBlockId → CheckResult
  rcptCheck : RcptBlockId → CheckResult
  targetStart : TargetId → Option Err
  deliveryAddRcpt : TargetId → Option Err

/-- The recipient-block resolution inside `AddRcpt` (lines 175–198), same
order as for the sender: exact lowercased address, then lowercased domain
(501 5.1.3 on malformed), then the source block's `defaultRcpt`. -/
def resolveRcpt (sb : SourceBlock) (rcptTo : String) : Except Err RcptBlockId :=
  match sb.perRcpt (goToLower rcptTo) with
  | some rb => .ok rb
  | none =>
    match splitAddress rcptTo with
    | .error e =>
        .error (.smtp 501 5 1 3 ("Invalid recipient address: " ++ e.text))
    | .ok (_, domain) =>
      match sb.perRcpt (goToLower domain) with
      | some rb => .ok rb
      | none => .ok sb.defaultRcpt

/-- The `for _, target := range rcptBlock.targets` loop of `AddRcpt`: for each
target, start a delivery unless one is memoized, then forward `AddRcpt`;
stop at the first error.  Returns (error, deliveries map keys, events). -/
def addRcptLoop (o : RcptOracle) :
    List TargetId → List TargetId → Option Err × List TargetId × List Ev
  | [], ds => (none, ds, [])
  | t :: ts, ds =>
    let started : Except Err (List TargetId × List Ev) :=
      if t ∈ ds then .ok (ds, [])
      else
        match o.targetStart t with
        | some e => .error e
        | none => .ok (ds ++ [t], [Ev.targetStart t])
    match started with
    | .error e => (some e, ds, [])
    | .ok (ds1, evs1) =>
      match o.deliveryAddRcpt t with
      | some e => (some e, ds1, evs1 ++ [Ev.deliveryAddRcpt t])
      | none =>
        let (r, ds2, evs2) := addRcptLoop o ts ds1
        (r, ds2, evs1 ++ Ev.deliveryAddRcpt t :: evs2)

/-- The lazy opening of the per-rcpt-block check state (lines 205–220): if no
state is memoized for the block, create one and run `CheckConnection` and
`CheckSender`; the state is memoized only after both checks pass, exactly
as in the code. -/
def openRcptState (o : RcptOracle) (dd : DDelivery) (rb : RcptBlockId) :
    Option Err × DDelivery × List Ev :=
  if rb ∈ dd.rcptStates then (none, dd, [])
  else
    match o.newMessage rb with
    | some e => (some e, dd, [])
    | none =>
      match checkResultStep dd.cfg dd.st (o.conn rb) with
      | (some e, st') => (some e, { dd with st := st' }, [Ev.openRcptState rb])
      | (none, st1) =>
        match checkResultStep dd.cfg st1 (o.sender rb) with
        | (some e, st') =>
            (some e, { dd with st := st' }, [Ev.openRcptState rb])
        | (none, st2) =>
            (none, { dd with st := st2,
                             rcptStates := dd.rcptStates ++ [rb] },
             [Ev.openRcptState rb])

/-- `dispatcherDelivery.AddRcpt` over the environment `env` resolving
`*rcptBlock` identities. -/
def DAddRcpt (env : RcptBlockId → RcptBlock) (o : RcptOracle)
    (dd : DDelivery) (rcptTo : String) : Option Err × DDelivery × List Ev :=
  match resolveRcpt dd.sourceBlock rcptTo with
  | .error e => (some e, dd, [])
  | .ok rbId =>
    let rb := env rbId
    match rb.rejectErr with
    | some e => (some e, dd, [])
    | none =>
      match openRcptState o dd rbId with
      | (some e, dd1, evs1) => (some e, dd1, evs1)
      | (none, dd1, evs1) =>
        match checkResultStep dd1.cfg dd1.st (o.rcptCheck rbId) with
        | (some e, st') => (some e, { dd1 with st := st' }, evs1)
        | (none, st2) =>
          let dd2 := { dd1 with st := st2 }
          match addRcptLoop o rb.targets dd2.deliveries with
          | (r, ds', evs2) =>
              (r, { dd2 with deliveries := ds' }, evs1 ++ evs2)

/-- A session issuing a sequence of `AddRcpt` calls (each with the behaviour
of the external world for that call); the session goes on after a failed
`AddRcpt` — the failure only affects that recipient. -/
def runAddRcpts (env : RcptBlockId → RcptBlock) :
    DDelivery → List (RcptOracle × String) → DDelivery × List Ev
  | dd, [] => (dd, [])
  | dd, (o, rcptTo) :: rest =>
    match DAddRcpt env o dd rcptTo with
    | (_, dd', evs) =>
      let (dd'', evs') := runAddRcpts env dd' rest
      (dd'', evs ++ evs')

/-- `dispatcherDelivery.Commit`: commit each opened delivery, stopping at the
first failure.  The list is the iteration order of the `deliveries` map;
the oracle gives each delivery's `Commit` outcome. -/
def DCommit (o : TargetId → Option Err) : List TargetId → Option Err × List Ev
  | [] => (none, [])
  | t :: ts =>
    match o t with
    | some e => (some e, [Ev.deliveryCommit t])
    | none =>
      let (r, evs) := DCommit o ts
      (r, Ev.deliveryCommit t :: evs)

/-- `dispatcherDelivery.Abort`: abort every opened delivery, remembering the
last error; `last` is the current value of the `lastErr` variable. -/
def DAbort (o : TargetId → Option Err) :
    List TargetId → Option Err → Option Err × List Ev
  | [], last => (last, [])
  | t :: ts, last =>
    let last' := match o t with
      | some e => some e
      | none => last
    let (r, evs) := DAbort o ts last'
    (r, Ev.deliveryAbort t :: evs)

/-- `dispatcherDelivery.Abort` as called (with `lastErr` starting nil). -/
def DAbortAll (o : TargetId → Option Err) (ds : List TargetId) :
    Option Err × List Ev :=
  DAbort o ds none

/-! ## MTA-STS cache (`cache.go`, package `mtasts`) -/

/-- An MTA-STS policy as the cache handles it (`Policy`): the mode is opaque
to `fetch`, `maxAge` is the `max_age` value in seconds. -/
structure Policy where
  mode : String
  maxAge : Int
  mx : List String
  deriving DecidableEq, Repr

/-- `ErrNoPolicy`. -/
def errNoPolicy : Err := .tagged "mtasts: no MTA-STS policy found"

/-- Outcome of `Cache.load` for the domain: the file does not exist, some
other filesystem/decode error, or the cached `{ID, FetchTime, Policy}`.
Times are integral seconds. -/
inductive LoadRes where
  | notExist
  | otherErr (e : Err)
  | found (id : String) (fetchTime : Int) (p : Policy)

/-- Outcome of the `net.LookupTXT` call: records, a permanent DNS error
(`*net.DNSError` with `IsTemporary == false`), or any other error. -/
inductive TxtRes where
  | records (rs : List String)
  | permDNSErr
  | otherErr (e : Err)

/-- Outcomes of the external calls one `Cache.fetch` makes. -/
structure FetchEnv where
  load : LoadRes
  now : Int
  txt : TxtRes
  readDNSRecord : String → Except Err String
  download : Except Err Policy
  storeErr : Option Err

/-- `Cache.fetch` (cache.go lines 117–174), returning
`(cacheHit, policy, err)` as `Except Err (Bool × Option Policy)`; the
`*Policy` result may be nil (`none`), notably when `cachedPolicy` is
returned with no cache loaded.  Note the `store`-failure branch returns
`cachedPolicy`, not the freshly downloaded `policy`. -/
def fetch (c : FetchEnv) : Except Err (Bool × Option Policy) :=
  match c.load with
  | .otherErr e => .error e
  | load =>
    let validCache : Bool := match load with
      | .found _ ft p => !(ft + p.maxAge < c.now)
      | _ => false
    let cachedId : String := match load with
      | .found id _ _ => id
      | _ => ""
    let cachedPolicy : Option Policy := match load with
      | .found _ _ p => some p
      | _ => none
    match c.txt with
    | .otherErr e => .error e
    | .permDNSErr => .error errNoPolicy
    | .records rs =>
      match rs with
      | [r] =>
        match c.readDNSRecord r with
        | .error _ =>
            if validCache then .ok (true, cachedPolicy)
            else .error errNoPolicy
        | .ok dnsId =>
          if !validCache || dnsId ≠ cachedId then
            match c.download with
            | .error e => .error e
            | .ok policy =>
              match c.storeErr with
              | some _ => .ok (false, cachedPolicy)
              | none => .ok (false, some policy)
          else .ok (true, cachedPolicy)
      | _ =>
          if validCache then .ok (true, cachedPolicy)
          else .error errNoPolicy

/-! ## Theorems -/

/-- C2 (counterexample): `splitAddress` does not lowercase its result — on
`"A@B"` it returns `("A", "B")` verbatim, not the lowercased `("a", "b")`
the claim demands. -/
theorem splitAddress_counterexample :
    splitAddress "A@B" = Except.ok ("A", "B") ∧
    splitAddress "A@B" ≠ Except.ok ("a", "b") := by
  refine ⟨by decide, by decide⟩

/-- C2 (amended): `splitAddress` splits on `'@'` and returns the resulting
(mailbox, domain) pair *verbatim, without lowercasing* (lowercasing is done
by the callers at map-lookup time): exactly one `'@'` with non-empty
mailbox and domain succeeds; a sole token equal to `postmaster`
case-insensitively succeeds with empty domain (the mailbox kept in its
original case); every other input fails, always with the malformed-address
error. -/
theorem splitAddress_characterization :
    (∀ addr m d, splitAddress addr = Except.ok (m, d) ↔
      ((goSplitAt addr = [m, d] ∧ m.length ≠ 0 ∧ d.length ≠ 0) ∨
       (goSplitAt addr = [m] ∧ d = "" ∧ eqFold m "postmaster" = true))) ∧
    (∀ addr e, splitAddress addr = Except.error e → e = malformedAddress) := by
  constructor
  · intro addr m d
    unfold splitAddress
    cases h : goSplitAt addr with
    | nil => simp
    | cons p0 rest =>
      cases rest with
      | nil =>
        by_cases hf : eqFold p0 "postmaster"
        · simp [hf]
          rintro rfl
          constructor
          · rintro rfl; exact ⟨rfl, hf⟩
          · rintro ⟨rfl, -⟩; rfl
        · simp [hf]
          intro h1
          subst h1
          intro _
          simpa using hf
      | cons p1 rest2 =>
        cases rest2 with
        | nil =>
          by_cases hz : p0.length = 0 || p1.length = 0
          · rcases Bool.or_eq_true_iff.mp hz with h0 | h0 <;>
              simp [hz] <;> rintro rfl rfl <;>
              simp_all
          · have hz' := hz
            simp only [Bool.or_eq_true, decide_eq_true_eq, not_or] at hz'
            simp [hz]
            rintro rfl rfl
            exact ⟨hz'.1, hz'.2⟩
        | cons p2 rest3 => simp
  · intro addr e
    unfold splitAddress
    split
    · split
      · intro h; cases h
      · intro h; cases h; rfl
    · split
      · intro h; cases h; rfl
      · intro h; cases h
    · intro h; cases h; rfl

/-- C2 witness: the amended characterization applied to concrete inputs. -/
theorem splitAddress_characterization_witness :
    splitAddress "a@b" = Except.ok ("a", "b") ∧
    splitAddress "PostMaster" = Except.ok ("PostMaster", "") :=
  ⟨(splitAddress_characterization.1 "a@b" "a" "b").mpr
      (Or.inl ⟨by decide, by decide, by decide⟩),
   (splitAddress_characterization.1 "PostMaster" "PostMaster" "").mpr
      (Or.inr ⟨by decide, rfl, by decide⟩)⟩

/-- C10: a check result carrying a non-nil `RejectErr` is returned as that
error with the state (running score, `Quarantine` flag, accumulated
`Authentication-Results`, accumulated header fields) completely
unchanged. -/
theorem checkResult_rejectErr_returns_unchanged :
    ∀ cfg st res e, res.rejectErr = some e →
      checkResultStep cfg st res = (some e, st) := by
  intro cfg st res e h
  simp [checkResultStep, h]

/-- C10 witness. -/
theorem checkResult_rejectErr_returns_unchanged_witness :
    checkResultStep ⟨some 1, some 1⟩ ⟨7, false, ["a"], [("X", "y")]⟩
      { rejectErr := some (Err.tagged "no"), quarantine := true,
        scoreAdjust := 100, authResult := ["b"], header := [("Z", "w")] } =
      (some (Err.tagged "no"), ⟨7, false, ["a"], [("X", "y")]⟩) :=
  checkResult_rejectErr_returns_unchanged _ _ _ _ rfl

/-- One `checkResult` call never clears the `Quarantine` flag. -/
theorem checkResultStep_quarantine_mono (cfg : ScoreCfg) (st : DDState)
    (r : CheckResult) (h : st.quarantine = true) :
    ((checkResultStep cfg st r).2).quarantine = true := by
  unfold checkResultStep
  split
  · exact h
  · dsimp only
    split <;> split <;> simp_all

/-- C4: across any sequence of check results processed by the dispatcher, the
`Quarantine` flag is monotone — once true it stays true (no step, rejecting
or not, clears it). -/
theorem quarantine_monotone :
    ∀ cfg st rs, st.quarantine = true →
      ((runChecks cfg st rs).2).quarantine = true := by
  intro cfg st rs
  induction rs generalizing st with
  | nil => intro h; simpa [runChecks] using h
  | cons r rs ih =>
    intro h
    unfold runChecks
    cases hs : checkResultStep cfg st r with
    | mk err st' =>
      have hq : st'.quarantine = true := by
        have := checkResultStep_quarantine_mono cfg st r h
        rw [hs] at this; exact this
      cases err with
      | none => exact ih st' hq
      | some e => simpa using hq

/-- Closed form of `checkResultStep` on a result with no `RejectErr`. -/
theorem checkResultStep_eq (cfg : ScoreCfg) (st : DDState) (res : CheckResult)
    (hrej : res.rejectErr = none) :
    checkResultStep cfg st res =
      (if reachesThreshold cfg.rejectScore
          (wrap32 (st.checkScore + res.scoreAdjust)) then
        (some (scoreRejectErr (wrap32 (st.checkScore + res.scoreAdjust))),
         ⟨wrap32 (st.checkScore + res.scoreAdjust),
          st.quarantine || res.quarantine, st.authRes, st.header⟩)
       else
        (none,
         ⟨wrap32 (st.checkScore + res.scoreAdjust),
          (st.quarantine || res.quarantine) ||
            reachesThreshold cfg.quarantineScore
              (wrap32 (st.checkScore + res.scoreAdjust)),
          st.authRes ++ res.authResult, st.header ++ res.header⟩)) := by
  unfold checkResultStep
  rw [hrej]
  dsimp only
  by_cases hqr : res.quarantine = true <;>
    by_cases h1 : reachesThreshold cfg.rejectScore
        (wrap32 (st.checkScore + res.scoreAdjust)) = true <;>
      by_cases h2 : reachesThreshold cfg.quarantineScore
          (wrap32 (st.checkScore + res.scoreAdjust)) = true <;>
        simp_all

/-- C3: for a check result that carries no `RejectErr`, (i) `ScoreAdjust` is
added (in the `int32` arithmetic of `checkScore`) to the running score in
the resulting state — plain integer addition whenever no wrap occurs; (ii)
if `rejectScore` is set and the new running score reaches it, the call
returns the 550 5.7.0 error; (iii) if the call does not reject and
`quarantineScore` is set and the new running score reaches it, the
message's `Quarantine` flag is true afterwards. -/
theorem checkResult_scoring :
    ∀ cfg st res, res.rejectErr = none →
      ((checkResultStep cfg st res).2.checkScore =
          wrap32 (st.checkScore + res.scoreAdjust)) ∧
      (-(2 ^ 31) ≤ st.checkScore + res.scoreAdjust →
        st.checkScore + res.scoreAdjust < 2 ^ 31 →
        (checkResultStep cfg st res).2.checkScore =
          st.checkScore + res.scoreAdjust) ∧
      (∀ rs, cfg.rejectScore = some rs →
        wrap32 rs ≤ wrap32 (st.checkScore + res.scoreAdjust) →
        (checkResultStep cfg st res).1 =
          some (scoreRejectErr (wrap32 (st.checkScore + res.scoreAdjust)))) ∧
      ((checkResultStep cfg st res).1 = none →
        ∀ qs, cfg.quarantineScore = some qs →
        wrap32 qs ≤ wrap32 (st.checkScore + res.scoreAdjust) →
        (checkResultStep cfg st res).2.quarantine = true) := by
  intro cfg st res hrej
  have hwrap : ∀ x : Int, -(2 ^ 31) ≤ x → x < 2 ^ 31 → wrap32 x = x := by
    intro x h1 h2
    unfold wrap32
    rw [Int.emod_eq_of_lt (by omega) (by omega)]
    omega
  have hch := checkResultStep_eq cfg st res hrej
  have hsc : (checkResultStep cfg st res).2.checkScore =
      wrap32 (st.checkScore + res.scoreAdjust) := by
    rw [hch]
    by_cases h1 : reachesThreshold cfg.rejectScore
        (wrap32 (st.checkScore + res.scoreAdjust)) = true <;> simp [h1]
  refine ⟨hsc, ?_, ?_, ?_⟩
  · intro hlo hhi
    rw [hsc, hwrap _ hlo hhi]
  · intro rs hrs hle
    have h1 : reachesThreshold cfg.rejectScore
        (wrap32 (st.checkScore + res.scoreAdjust)) = true := by
      simp only [reachesThreshold, hrs, decide_eq_true_eq]
      exact hle
    rw [hch]
    simp [h1]
  · intro hnone qs hqs hle
    have h2 : reachesThreshold cfg.quarantineScore
        (wrap32 (st.checkScore + res.scoreAdjust)) = true := by
      simp only [reachesThreshold, hqs, decide_eq_true_eq]
      exact hle
    rw [hch] at hnone ⊢
    by_cases h1 : reachesThreshold cfg.rejectScore
        (wrap32 (st.checkScore + res.scoreAdjust)) = true
    · simp [h1] at hnone
    · simp [h1, h2]

/-- C3 witness: with `rejectScore = 10` and `quarantineScore = 5`, a check
adding 7 leaves the score at 7, does not reject, and quarantines. -/
theorem checkResult_scoring_witness :
    (checkResultStep ⟨some 10, some 5⟩ ⟨0, false, [], []⟩
        { scoreAdjust := 7 }).2.checkScore = 0 + 7 ∧
    (checkResultStep ⟨some 10, some 5⟩ ⟨0, false, [], []⟩
        { scoreAdjust := 7 }).2.quarantine = true := by
  have h := checkResult_scoring ⟨some 10, some 5⟩ ⟨0, false, [], []⟩
    { scoreAdjust := 7 } rfl
  exact ⟨h.2.1 (by decide) (by decide),
    h.2.2.2 (by decide) 5 rfl (by decide)⟩

/-- C7: `Commit` walks the opened deliveries in iteration order; if every
`Commit` succeeds it returns nil having committed each exactly once, and at
the first failing delivery it returns that error having committed only the
deliveries up to and including the failing one — the rest stay
un-committed. -/
theorem commit_first_failure :
    (∀ (o : TargetId → Option Err) ds, (∀ x ∈ ds, o x = none) →
      DCommit o ds = (none, ds.map Ev.deliveryCommit)) ∧
    (∀ (o : TargetId → Option Err) (pre post : List TargetId) t e,
      (∀ x ∈ pre, o x = none) → o t = some e →
      DCommit o (pre ++ t :: post) =
        (some e, (pre ++ [t]).map Ev.deliveryCommit)) := by
  constructor
  · intro o ds h
    induction ds with
    | nil => rfl
    | cons x xs ih =>
      have hx : o x = none := h x (List.mem_cons_self x xs)
      have hrest := ih (fun y hy => h y (List.mem_cons_of_mem x hy))
      simp [DCommit, hx, hrest]
  · intro o pre post t e hpre ht
    induction pre with
    | nil => simp [DCommit, ht]
    | cons x xs ih =>
      have hx : o x = none := hpre x (List.mem_cons_self x xs)
      have hrest := ih (fun y hy => hpre y (List.mem_cons_of_mem x hy))
      simp [DCommit, hx, hrest]

/-- C7 witness: deliveries `[1, 2, 3]` where `2` fails — `1` and `2` get
`Commit`, `3` does not; and an all-success run commits everything. -/
theorem commit_first_failure_witness :
    DCommit (fun t => if t = 2 then some (Err.tagged "boom") else none)
        ([1] ++ 2 :: [3]) =
      (some (Err.tagged "boom"),
        ([1] ++ [2]).map Ev.deliveryCommit) ∧
    DCommit (fun _ => none) [4, 5] =
      (none, [4, 5].map Ev.deliveryCommit) :=
  ⟨commit_first_failure.2 (fun t => if t = 2 then some (Err.tagged "boom") else none)
      [1] [3] 2 (Err.tagged "boom") (by decide) (by decide),
   commit_first_failure.1 (fun _ => none) [4, 5] (fun _ _ => rfl)⟩

/-- C1: policy-block resolution and reject short-circuit.  For the sender
(`Start`, after the global checks pass): an exact match on the lowercased
address wins, else a match on the lowercased domain, else `defaultSource`;
whenever the matched block has a non-nil `rejectErr`, `Start` returns
exactly that error with trace `[openGlobalState]` — so the source block's
check state is never opened and no delivery is started.  For the recipient
(`AddRcpt`): same order over `perRcpt` / `defaultRcpt`; a matched block
with non-nil `rejectErr` makes `AddRcpt` return that error with the state
unchanged and an empty trace — no check state opened, no delivery
started. -/
theorem policy_reject_short_circuit :
    (∀ (d : Dispatcher) (o : StartOracle) (q0 : Bool) (mailFrom : String)
        st1 st2 sb e,
      o.globalNewMessage = none →
      checkResultStep d.cfg ⟨0, q0, [], []⟩ o.globalConn = (none, st1) →
      checkResultStep d.cfg st1 o.globalSender = (none, st2) →
      d.perSource (goToLower mailFrom) = some sb →
      sb.rejectErr = some e →
      DStart d o q0 mailFrom = (.error e, [Ev.openGlobalState])) ∧
    (∀ (d : Dispatcher) (o : StartOracle) (q0 : Bool) (mailFrom : String)
        st1 st2 mb dom sb e,
      o.globalNewMessage = none →
      checkResultStep d.cfg ⟨0, q0, [], []⟩ o.globalConn = (none, st1) →
      checkResultStep d.cfg st1 o.globalSender = (none, st2) →
      d.perSource (goToLower mailFrom) = none →
      splitAddress mailFrom = .ok (mb, dom) →
      d.perSource (goToLower dom) = some sb →
      sb.rejectErr = some e →
      DStart d o q0 mailFrom = (.error e, [Ev.openGlobalState])) ∧
    (∀ (d : Dispatcher) (o : StartOracle) (q0 : Bool) (mailFrom : String)
        st1 st2 mb dom e,
      o.globalNewMessage = none →
      checkResultStep d.cfg ⟨0, q0, [], []⟩ o.globalConn = (none, st1) →
      checkResultStep d.cfg st1 o.globalSender = (none, st2) →
      d.perSource (goToLower mailFrom) = none →
      splitAddress mailFrom = .ok (mb, dom) →
      d.perSource (goToLower dom) = none →
      d.defaultSource.rejectErr = some e →
      DStart d o q0 mailFrom = (.error e, [Ev.openGlobalState])) ∧
    (∀ (env : RcptBlockId → RcptBlock) (o : RcptOracle) (dd : DDelivery)
        (rcptTo : String) rbId e,
      dd.sourceBlock.perRcpt (goToLower rcptTo) = some rbId →
      (env rbId).rejectErr = some e →
      DAddRcpt env o dd rcptTo = (some e, dd, [])) ∧
    (∀ (env : RcptBlockId → RcptBlock) (o : RcptOracle) (dd : DDelivery)
        (rcptTo : String) mb dom rbId e,
      dd.sourceBlock.perRcpt (goToLower rcptTo) = none →
      splitAddress rcptTo = .ok (mb, dom) →
      dd.sourceBlock.perRcpt (goToLower dom) = some rbId →
      (env rbId).rejectErr = some e →
      DAddRcpt env o dd rcptTo = (some e, dd, [])) ∧
    (∀ (env : RcptBlockId → RcptBlock) (o : RcptOracle) (dd : DDelivery)
        (rcptTo : String) mb dom e,
      dd.sourceBlock.perRcpt (goToLower rcptTo) = none →
      splitAddress rcptTo = .ok (mb, dom) →
      dd.sourceBlock.perRcpt (goToLower dom) = none →
      (env dd.sourceBlock.defaultRcpt).rejectErr = some e →
      DAddRcpt env o dd rcptTo = (some e, dd, [])) := by
  refine ⟨?_, ?_, ?_, ?_, ?_, ?_⟩
  · intro d o q0 mailFrom st1 st2 sb e h0 h1 h2 h3 h4
    simp only [DStart, h0, h1, h2, resolveSource, h3, h4]
  · intro d o q0 mailFrom st1 st2 mb dom sb e h0 h1 h2 h3 h4 h5 h6
    simp only [DStart, h0, h1, h2, resolveSource, h3, h4, h5, h6]
  · intro d o q0 mailFrom st1 st2 mb dom e h0 h1 h2 h3 h4 h5 h6
    simp only [DStart, h0, h1, h2, resolveSource, h3, h4, h5, h6]
  · intro env o dd rcptTo rbId e h1 h2
    simp only [DAddRcpt, resolveRcpt, h1, h2]
  · intro env o dd rcptTo mb dom rbId e h1 h2 h3 h4
    simp only [DAddRcpt, resolveRcpt, h1, h2, h3, h4]
  · intro env o dd rcptTo mb dom e h1 h2 h3 h4
    simp only [DAddRcpt, resolveRcpt, h1, h2, h3, h4]

/-- Example recipient blocks: each rejects, so resolution is observable. -/
def envEx : RcptBlockId → RcptBlock := fun i =>
  if i = 0 then ⟨some (Err.tagged "rb-exact"), []⟩
  else if i = 1 then ⟨some (Err.tagged "rb-domain"), []⟩
  else ⟨some (Err.tagged "rb-default"), []⟩

/-- Example source block routing `b@y` (exact) and `z` (domain) to rejecting
recipient blocks, with a rejecting default. -/
def sbEx : SourceBlock :=
  ⟨none, fun s => if s = "b@y" then some 0 else if s = "z" then some 1 else none, 2⟩

/-- Example dispatcher: `a@x` (exact) and `w` (domain) map to rejecting
source blocks, and the default source block also rejects. -/
def dEx : Dispatcher :=
  ⟨fun s =>
      if s = "a@x" then some ⟨some (Err.tagged "sb-exact"), fun _ => none, 0⟩
      else if s = "w" then some ⟨some (Err.tagged "sb-domain"), fun _ => none, 0⟩
      else none,
   ⟨some (Err.tagged "sb-default"), fun _ => none, 0⟩,
   ⟨none, none⟩⟩

/-- A `Start` oracle whose checks all pass with a neutral result. -/
def oS : StartOracle := ⟨none, {}, {}, none, {}, {}⟩

/-- An `AddRcpt` oracle whose checks all pass with a neutral result. -/
def oR : RcptOracle :=
  ⟨fun _ => none, fun _ => {}, fun _ => {}, fun _ => {}, fun _ => none,
   fun _ => none⟩

/-- The delivery state right after a successful `Start` against `sbEx`. -/
def ddEx : DDelivery := ⟨⟨none, none⟩, sbEx, "a@x", ⟨0, false, [], []⟩, [], []⟩

/-- C1 witness: each resolution tier exercised on `dEx` / `sbEx`, upper-case
inputs confirming the lowercased lookups. -/
theorem policy_reject_short_circuit_witness :
    (DStart dEx oS false "A@X" =
      (.error (Err.tagged "sb-exact"), [Ev.openGlobalState])) ∧
    (DStart dEx oS false "c@W" =
      (.error (Err.tagged "sb-domain"), [Ev.openGlobalState])) ∧
    (DStart dEx oS false "d@v" =
      (.error (Err.tagged "sb-default"), [Ev.openGlobalState])) ∧
    (DAddRcpt envEx oR ddEx "B@Y" = (some (Err.tagged "rb-exact"), ddEx, [])) ∧
    (DAddRcpt envEx oR ddEx "u@Z" = (some (Err.tagged "rb-domain"), ddEx, [])) ∧
    (DAddRcpt envEx oR ddEx "u@q" = (some (Err.tagged "rb-default"), ddEx, [])) :=
  ⟨policy_reject_short_circuit.1 dEx oS false "A@X"
      ⟨0, false, [], []⟩ ⟨0, false, [], []⟩ _ _ rfl rfl rfl rfl rfl,
   policy_reject_short_circuit.2.1 dEx oS false "c@W"
      ⟨0, false, [], []⟩ ⟨0, false, [], []⟩ "c" "W" _ _ rfl rfl rfl rfl rfl rfl rfl,
   policy_reject_short_circuit.2.2.1 dEx oS false "d@v"
      ⟨0, false, [], []⟩ ⟨0, false, [], []⟩ "d" "v" _ rfl rfl rfl rfl rfl rfl rfl,
   policy_reject_short_circuit.2.2.2.1 envEx oR ddEx "B@Y" 0 _ rfl rfl,
   policy_reject_short_circuit.2.2.2.2.1 envEx oR ddEx "u@Z" "u" "Z" 1 _
      rfl rfl rfl rfl,
   policy_reject_short_circuit.2.2.2.2.2 envEx oR ddEx "u@q" "u" "q" _
      rfl rfl rfl rfl⟩

/-- A dispatcher with no per-source rules and a non-rejecting default. -/
def dC5 : Dispatcher :=
  ⟨fun _ => none, ⟨none, fun _ => none, 0⟩, ⟨none, none⟩⟩

/-- C5: the cleanup the claim describes does not happen.  (i) When the global
`CheckConnection` rejects after the global check state was opened, `Start`
fails with the trace `[openGlobalState]` — no `Close` (the deferred close
reads the function-scope `err`, which is nil on this path because the
rejection used a shadowed `err`).  (ii) Only a failing
`sourceBlock.checks.NewMessage` assigns the function-scope `err`, so only
that path closes the global state.  (iii) When a source-block check
rejects, both opened states stay open.  (iv) `Abort` emits only
`deliveryAbort` events — it closes no check states at all. -/
theorem start_failure_leaves_states_open :
    (DStart dC5 ⟨none, { rejectErr := some (Err.tagged "conn-reject") }, {},
        none, {}, {}⟩ false "a@b" =
      (.error (Err.tagged "conn-reject"), [Ev.openGlobalState])) ∧
    (DStart dC5 ⟨none, {}, {}, some (Err.tagged "src-newmessage"), {}, {}⟩
        false "a@b" =
      (.error (Err.tagged "src-newmessage"),
        [Ev.openGlobalState, Ev.closeGlobalState])) ∧
    (DStart dC5 ⟨none, {}, {},
        none, { rejectErr := some (Err.tagged "src-conn-reject") }, {}⟩
        false "a@b" =
      (.error (Err.tagged "src-conn-reject"),
        [Ev.openGlobalState, Ev.openSourceState])) ∧
    ((DAbortAll (fun _ => some (Err.tagged "abort-fail")) [0, 1]).2 =
      [Ev.deliveryAbort 0, Ev.deliveryAbort 1]) :=
  ⟨rfl, rfl, rfl, rfl⟩

/-- The freshly downloaded policy of the C9 scenario. -/
def pFresh : Policy := ⟨"enforce", 604800, ["mx.example.org"]⟩

/-- An expired previously-cached policy. -/
def pStale : Policy := ⟨"testing", 60, []⟩

/-- C9 fetch environment: no cached policy, one valid TXT record, successful
HTTPS download, failing cache write. -/
def fetchEnvEx : FetchEnv :=
  ⟨.notExist, 0, .records ["v=STSv1; id=1"], fun _ => .ok "1",
   .ok pFresh, some (Err.tagged "disk full")⟩

/-- C9: when persisting the freshly downloaded policy fails, `fetch` does
*not* return the fresh policy: with no cached policy it returns no policy
at all (`none`), and with an expired cached policy it returns the stale
one — while the identical environment with a succeeding store returns the
fresh policy.  This contradicts the code's own comment ("We still got
up-to-date policy, cache is not critcial"). -/
theorem fetch_store_failure_drops_policy :
    (fetch fetchEnvEx = .ok (false, none)) ∧
    (fetchEnvEx.download = .ok pFresh) ∧
    (fetch { fetchEnvEx with storeErr := none } = .ok (false, some pFresh)) ∧
    (fetch { fetchEnvEx with load := .found "old" 0 pStale, now := 1000 } =
      .ok (false, some pStale)) :=
  ⟨rfl, rfl, rfl, rfl⟩

/-- The last element of an error list, if any: the value of the `lastErr`
variable after the `Abort` loop. -/
def lastErrorOfD : List Err → Option Err → Option Err
  | [], dflt => dflt
  | e :: es, _ => lastErrorOfD es (some e)

/-- `DAbort` aborts every delivery in order and its result is the last error
among the outcomes (with the incoming accumulator as fallback). -/
theorem DAbort_eq (o : TargetId → Option Err) :
    ∀ ds last, DAbort o ds last =
      (lastErrorOfD (ds.filterMap o) last, ds.map Ev.deliveryAbort) := by
  intro ds
  induction ds with
  | nil => intro last; rfl
  | cons x xs ih =>
    intro last
    cases hx : o x with
    | none => simp [DAbort, hx, ih, List.filterMap_cons, lastErrorOfD]
    | some e => simp [DAbort, hx, ih, List.filterMap_cons, lastErrorOfD]

/-- C8: `Abort` calls `Abort` on every opened delivery (the event trace is
exactly one `deliveryAbort` per delivery, failures notwithstanding) and
returns the last error observed — `none` when every `Abort` succeeds. -/
theorem abort_all_last_error :
    ∀ (o : TargetId → Option Err) ds,
      DAbortAll o ds =
        (lastErrorOfD (ds.filterMap o) none, ds.map Ev.deliveryAbort) := by
  intro o ds
  exact DAbort_eq o ds none

/-- Number of `targetStart t` events in a trace — how many times
`target.Start` was called for target `t`. -/
def countStart (t : TargetId) : List Ev → Nat
  | [] => 0
  | Ev.targetStart u :: evs => (if u = t then 1 else 0) + countStart t evs
  | _ :: evs => countStart t evs

theorem countStart_append (t : TargetId) (a b : List Ev) :
    countStart t (a ++ b) = countStart t a + countStart t b := by
  induction a with
  | nil => simp [countStart]
  | cons e es ih =>
    cases e <;> (simp [countStart, ih]; try omega)

/-- Behaviour of the per-target loop of `AddRcpt` with respect to delivery
creation: the memoized set only grows, a `targetStart t` event is emitted
at most once and only if `t` was not yet memoized, any started target ends
up memoized, and a newly memoized target was started in this loop. -/
theorem addRcptLoop_spec (o : RcptOracle) (t : TargetId) :
    ∀ (ts ds : List TargetId),
      (∀ x, x ∈ ds → x ∈ (addRcptLoop o ts ds).2.1) ∧
      countStart t (addRcptLoop o ts ds).2.2 ≤ (if t ∈ ds then 0 else 1) ∧
      (0 < countStart t (addRcptLoop o ts ds).2.2 →
        t ∈ (addRcptLoop o ts ds).2.1) ∧
      (t ∈ (addRcptLoop o ts ds).2.1 →
        t ∈ ds ∨ 0 < countStart t (addRcptLoop o ts ds).2.2) := by
  intro ts
  induction ts with
  | nil =>
    intro ds
    refine ⟨fun x hx => hx, by simp [addRcptLoop, countStart], ?_, fun h => Or.inl h⟩
    simp [addRcptLoop, countStart]
  | cons u ts ih =>
    intro ds
    by_cases hmem : u ∈ ds
    · cases hd : o.deliveryAddRcpt u with
      | some e =>
        simp only [addRcptLoop, hmem, if_true, hd]
        refine ⟨fun x hx => hx, ?_, ?_, fun h => Or.inl h⟩ <;>
          simp [countStart]
      | none =>
        obtain ⟨hsub, hcnt, hstarted, hnew⟩ := ih ds
        rcases hX : addRcptLoop o ts ds with ⟨r, ds2, evs2⟩
        rw [hX] at hsub hcnt hstarted hnew
        simp only [addRcptLoop, hmem, if_true, hd, hX]
        dsimp only at hsub hcnt hstarted hnew ⊢
        refine ⟨hsub, ?_, ?_, ?_⟩
        · simpa [countStart] using hcnt
        · intro hpos
          exact hstarted (by simpa [countStart] using hpos)
        · intro ht
          rcases hnew ht with h | h
          · exact Or.inl h
          · exact Or.inr (by simpa [countStart] using h)
    · cases hts : o.targetStart u with
      | some e =>
        simp only [addRcptLoop, hmem, if_false, hts]
        refine ⟨fun x hx => hx, ?_, ?_, fun h => Or.inl h⟩ <;>
          simp [countStart]
      | none =>
        cases hd : o.deliveryAddRcpt u with
        | some e =>
          simp only [addRcptLoop, hmem, if_false, hts, hd]
          refine ⟨fun x hx => by simp [hx], ?_, ?_, ?_⟩
          · by_cases hut : u = t
            · have htds : t ∉ ds := hut ▸ hmem
              simp [countStart, hut, htds]
            · simp [countStart, hut]
          · intro hpos
            by_cases hut : u = t
            · simp [← hut]
            · simp [countStart, hut] at hpos
          · intro ht
            rcases List.mem_append.mp ht with h | h
            · exact Or.inl h
            · have hh : t = u := List.mem_singleton.mp h
              exact Or.inr (by simp [countStart, hh])
        | none =>
          obtain ⟨hsub, hcnt, hstarted, hnew⟩ := ih (ds ++ [u])
          rcases hX : addRcptLoop o ts (ds ++ [u]) with ⟨r, ds2, evs2⟩
          rw [hX] at hsub hcnt hstarted hnew
          simp only [addRcptLoop, hmem, if_false, hts, hd, hX]
          dsimp only at hsub hcnt hstarted hnew ⊢
          have hcount : countStart t
              ([Ev.targetStart u] ++ Ev.deliveryAddRcpt u :: evs2) =
              (if u = t then 1 else 0) + countStart t evs2 := by
            simp [countStart]
          refine ⟨?_, ?_, ?_, ?_⟩
          · intro x hx
            exact hsub x (by simp [hx])
          · rw [hcount]
            by_cases hut : u = t
            · have hmemt : t ∈ ds ++ [u] := by simp [← hut]
              have h0 : countStart t evs2 ≤ 0 := by
                simpa [hmemt] using hcnt
              have htds : t ∉ ds := hut ▸ hmem
              simp [hut, htds]
              omega
            · have hne : t ≠ u := fun h => hut h.symm
              have hiff : (t ∈ ds ++ [u]) ↔ (t ∈ ds) := by
                simp [List.mem_append, hne]
              by_cases htds : t ∈ ds
              · have hmemt : t ∈ ds ++ [u] := hiff.mpr htds
                have h0 := hcnt
                rw [if_pos hmemt] at h0
                simp [hut, htds]
                omega
              · have h1 : countStart t evs2 ≤ 1 := by
                  have h' := hcnt
                  rw [if_neg (fun hc => htds (hiff.mp hc))] at h'
                  exact h'
                simp [hut, htds]
                omega
          · intro hpos
            rw [hcount] at hpos
            by_cases hut : u = t
            · exact hsub t (by simp [← hut])
            · simp [hut] at hpos
              exact hstarted hpos
          · intro ht
            rcases hnew ht with h | h
            · rcases List.mem_append.mp h with h' | h'
              · exact Or.inl h'
              · have hh : t = u := List.mem_singleton.mp h'
                exact Or.inr (by rw [hcount, if_pos hh.symm]; omega)
            · exact Or.inr (by rw [hcount]; omega)

/-- Opening a per-rcpt-block check state touches neither the deliveries map
nor the `targetStart` event count. -/
theorem openRcptState_spec (o : RcptOracle) (dd : DDelivery)
    (rb : RcptBlockId) (t : TargetId) :
    (openRcptState o dd rb).2.1.deliveries = dd.deliveries ∧
    countStart t (openRcptState o dd rb).2.2 = 0 := by
  unfold openRcptState
  split
  · exact ⟨rfl, rfl⟩
  · split
    · exact ⟨rfl, rfl⟩
    · split
      · exact ⟨rfl, rfl⟩
      · split
        · exact ⟨rfl, rfl⟩
        · exact ⟨rfl, rfl⟩

/-- One `AddRcpt` call: the deliveries map only grows, `target.Start` is
called at most once for `t` and only if no delivery for `t` was memoized,
a started target is memoized afterwards, and a newly memoized target was
started during the call. -/
theorem DAddRcpt_spec (env : RcptBlockId → RcptBlock) (o : RcptOracle)
    (dd : DDelivery) (rcptTo : String) (t : TargetId) :
    (∀ x, x ∈ dd.deliveries → x ∈ (DAddRcpt env o dd rcptTo).2.1.deliveries) ∧
    countStart t (DAddRcpt env o dd rcptTo).2.2 ≤
      (if t ∈ dd.deliveries then 0 else 1) ∧
    (0 < countStart t (DAddRcpt env o dd rcptTo).2.2 →
      t ∈ (DAddRcpt env o dd rcptTo).2.1.deliveries) ∧
    (t ∈ (DAddRcpt env o dd rcptTo).2.1.deliveries →
      t ∈ dd.deliveries ∨ 0 < countStart t (DAddRcpt env o dd rcptTo).2.2) := by
  unfold DAddRcpt
  rcases hres : resolveRcpt dd.sourceBlock rcptTo with e | rbId
  · simp only [hres]
    exact ⟨fun x hx => hx, by simp [countStart], by simp [countStart],
      fun h => Or.inl h⟩
  · obtain ⟨hDel, hCnt⟩ := openRcptState_spec o dd rbId t
    rcases hO : openRcptState o dd rbId with ⟨oerr, dd1, evs1⟩
    rw [hO] at hDel hCnt
    dsimp only at hDel hCnt
    rcases hrej : (env rbId).rejectErr with _ | e
    · rcases oerr with _ | e2
      · rcases hC : checkResultStep dd1.cfg dd1.st (o.rcptCheck rbId)
          with ⟨cerr, st2⟩
        rcases cerr with _ | e3
        · obtain ⟨hsub, hcnt, hstarted, hnew⟩ :=
            addRcptLoop_spec o t (env rbId).targets dd1.deliveries
          rcases hL : addRcptLoop o (env rbId).targets dd1.deliveries
            with ⟨r, ds2, evs2⟩
          rw [hL] at hsub hcnt hstarted hnew
          dsimp only at hsub hcnt hstarted hnew
          simp only [hres, hrej, hO, hC]
          try dsimp only
          simp only [hL]
          try dsimp only
          rw [hDel] at hsub hcnt hnew
          refine ⟨fun x hx => hsub x hx, ?_, ?_, ?_⟩
          · rw [countStart_append, hCnt]
            omega
          · intro hpos
            rw [countStart_append, hCnt] at hpos
            exact hstarted (by omega)
          · intro ht
            rcases hnew ht with h | h
            · exact Or.inl h
            · exact Or.inr (by rw [countStart_append, hCnt]; omega)
        · simp only [hres, hrej, hO, hC]
          try dsimp only
          exact ⟨fun x hx => hDel ▸ hx, by simp [hCnt], by simp [hCnt],
            fun h => Or.inl (hDel ▸ h)⟩
      · simp only [hres, hrej, hO]
        try dsimp only
        exact ⟨fun x hx => hDel ▸ hx, by simp [hCnt], by simp [hCnt],
          fun h => Or.inl (hDel ▸ h)⟩
    · simp only [hres, hrej]
      exact ⟨fun x hx => hx, by simp [countStart], by simp [countStart],
        fun h => Or.inl h⟩

/-- Across a whole sequence of `AddRcpt` calls, the number of
`target.Start` calls for `t` is bounded by 1, and by 0 if a delivery for
`t` already exists. -/
theorem runAddRcpts_spec (env : RcptBlockId → RcptBlock) (t : TargetId) :
    ∀ (calls : List (RcptOracle × String)) (dd : DDelivery),
      countStart t (runAddRcpts env dd calls).2 ≤
        (if t ∈ dd.deliveries then 0 else 1) := by
  intro calls
  induction calls with
  | nil => intro dd; simp [runAddRcpts, countStart]
  | cons c rest ih =>
    intro dd
    obtain ⟨hsub, hcnt, hstarted, hnew⟩ := DAddRcpt_spec env c.1 dd c.2 t
    rcases hA : DAddRcpt env c.1 dd c.2 with ⟨r, dd1, evs1⟩
    rw [hA] at hsub hcnt hstarted hnew
    dsimp only at hsub hcnt hstarted hnew
    have hrest := ih dd1
    rcases hR : runAddRcpts env dd1 rest with ⟨dd2, evs2⟩
    rw [hR] at hrest
    dsimp only at hrest
    have hgoal : runAddRcpts env dd (c :: rest) = (dd2, evs1 ++ evs2) := by
      show (match DAddRcpt env c.1 dd c.2 with
        | (_, dd', evs) =>
          let p := runAddRcpts env dd' rest
          (p.1, evs ++ p.2)) = (dd2, evs1 ++ evs2)
      rw [hA]
      dsimp only
      rw [hR]
    rw [hgoal]
    dsimp only
    rw [countStart_append]
    by_cases hmem : t ∈ dd.deliveries
    · have h1 : countStart t evs1 = 0 := by
        have := hcnt; simp [hmem] at this; omega
      have h2 : countStart t evs2 = 0 := by
        have : t ∈ dd1.deliveries := hsub t hmem
        simp [this] at hrest
        omega
      simp [hmem, h1, h2]
    · rcases Nat.eq_zero_or_pos (countStart t evs1) with h1 | h1
      · have h2 : countStart t evs2 ≤ 1 := by
          by_cases hm1 : t ∈ dd1.deliveries
          · rcases hnew hm1 with h | h
            · exact absurd h hmem
            · omega
          · simpa [hm1] using hrest
        simp [hmem, h1]
        omega
      · have hm1 : t ∈ dd1.deliveries := hstarted h1
        have h2 : countStart t evs2 = 0 := by
          simp [hm1] at hrest
          omega
        have h1' : countStart t evs1 ≤ 1 := by simpa [hmem] using hcnt
        simp [hmem, h2]
        omega

/-- C6: starting from a fresh delivery (`deliveries` map empty, as built by
`Start`), any sequence of `AddRcpt` calls — any recipients, any check and
target behaviour — calls `target.Start` at most once per target: the first
recipient routed to a target starts and memoizes its delivery, later
recipients reuse it. -/
theorem delivery_started_at_most_once :
    ∀ (env : RcptBlockId → RcptBlock) (dd : DDelivery)
      (calls : List (RcptOracle × String)) (t : TargetId),
      dd.deliveries = [] →
      countStart t (runAddRcpts env dd calls).2 ≤ 1 := by
  intro env dd calls t h
  have hspec := runAddRcpts_spec env t calls dd
  rw [h] at hspec
  simpa using hspec

/-- Recipient blocks for the C6 witness: every block accepts and routes to
the single target `7`. -/
def envC6 : RcptBlockId → RcptBlock := fun _ => ⟨none, [7]⟩

/-- A source block sending every recipient to its default block. -/
def sbC6 : SourceBlock := ⟨none, fun _ => none, 3⟩

/-- A fresh delivery state over `sbC6`. -/
def ddC6 : DDelivery := ⟨⟨none, none⟩, sbC6, "a@x", ⟨0, false, [], []⟩, [], []⟩

/-- C6 witness: two recipients routed to the same target start at most one
delivery. -/
theorem delivery_started_at_most_once_witness :
    countStart 7 (runAddRcpts envC6 ddC6 [(oR, "b@y"), (oR, "c@y")]).2 ≤ 1 :=
  delivery_started_at_most_once envC6 ddC6 [(oR, "b@y"), (oR, "c@y")] 7 rfl

example :
    countStart 7 (runAddRcpts envC6 ddC6 [(oR, "b@y"), (oR, "c@y")]).2 = 1 :=
  rfl

/-- C4 witness. -/
theorem quarantine_monotone_witness :
    ((runChecks ⟨none, none⟩ ⟨0, true, [], []⟩
        [{ scoreAdjust := -5 }, { rejectErr := some (Err.tagged "r") }]).2).quarantine
      = true :=
  quarantine_monotone ⟨none, none⟩ ⟨0, true, [], []⟩ _ rfl
